import Mathlib

/-!
Formal model of the Teams RAG bot conversation layer.

This file gives a shallow embedding of the conversation session and
query-bridging layer of the bot:

* rag_bridge.py  : response normalization (format_response) and the
  HTTP-outcome classification of process_query;
* conversation_storage.py : the in-memory and table-backed history store
  (get_conversation_history, add_message, clear_conversation,
  _cleanup_old_messages);
* teams_bot.py   : the command dispatch of handle_commands /
  on_message_activity.

Python dicts parsed from JSON are modelled by an inductive JVal type with
association-list objects; Python exceptions (TypeError, KeyError,
AttributeError, transport failures) are modelled with Except Unit.
-/

namespace TeamsBotModel

/-! ### Python string and JSON primitives -/

/-- Decides whether the first character list is an initial segment of the
second, mirroring Python str.startswith on the underlying characters. -/
def charsStartWith : List Char → List Char → Bool
  | [], _ => true
  | _ :: _, [] => false
  | p :: ps, c :: cs => p == c && charsStartWith ps cs

/-- Decides whether the first character list occurs contiguously inside the
second, mirroring the Python substring test used by the in operator. -/
def charsContain (pat : List Char) : List Char → Bool
  | [] => charsStartWith pat []
  | c :: cs => charsStartWith pat (c :: cs) || charsContain pat cs

/-- Python substring membership: sub in s for strings. -/
def pyStrContains (sub s : String) : Bool :=
  charsContain sub.data s.data

/-- Python str.lower restricted to the character-wise lowering performed on
the ASCII command words that concern us. -/
def pyToLower (s : String) : String :=
  String.mk (s.data.map Char.toLower)

/-- Python str.startswith. -/
def pyStartsWith (s pat : String) : Bool :=
  charsStartWith pat.data s.data

/-- Lexicographic less-or-equal on character lists, the order Python uses
to compare the timestamp and RowKey strings when sorting. -/
def charsLe : List Char → List Char → Bool
  | [], _ => true
  | _ :: _, [] => false
  | a :: as, b :: bs => if a = b then charsLe as bs else decide (a < b)

/-- Python string comparison a less-or-equal b. -/
def strLe (a b : String) : Bool :=
  charsLe a.data b.data

/-- JSON values as delivered by response.json(): objects are association
lists with the usual unique-key reading of a Python dict. -/
inductive JVal where
  | jnull : JVal
  | jbool : Bool → JVal
  | jnum : Int → JVal
  | jstr : String → JVal
  | jarr : List JVal → JVal
  | jobj : List (String × JVal) → JVal

/-- Key lookup in an object, the Python d[k] / k in d on a dict. -/
def jLookup : List (String × JVal) → String → Option JVal
  | [], _ => none
  | (k, v) :: rest, key => if k = key then some v else jLookup rest key

/-- Python dict.get(k, d): the stored value when the key is present (even
when that value is null), otherwise the default. -/
def pyGet (fields : List (String × JVal)) (key : String) (d : JVal) : JVal :=
  (jLookup fields key).getD d

/-- Equality of a JSON value with a Python string, as used by the in
operator on lists: only a string value can compare equal to a string. -/
def isStrEq (v : JVal) (s : String) : Bool :=
  match v with
  | .jstr t => s == t
  | _ => false

/-- Python key in container. Dicts test key membership, strings test
substring, lists test element equality; the remaining values raise
TypeError, modelled as an error. -/
def pyIn (key : String) (v : JVal) : Except Unit Bool :=
  match v with
  | .jobj fields => .ok (jLookup fields key).isSome
  | .jstr s => .ok (pyStrContains key s)
  | .jarr elems => .ok (elems.any (fun e => isStrEq e key))
  | _ => .error ()

/-- Python container[key] with a string key. Objects index by key (KeyError
when absent); strings and lists only take integer indices, and the other
values are not subscriptable, so all of those raise, modelled as errors. -/
def pySubscript (v : JVal) (key : String) : Except Unit JVal :=
  match v with
  | .jobj fields =>
      match jLookup fields key with
      | some x => .ok x
      | none => .error ()
  | _ => .error ()

/-- Python iteration over a value: lists yield their elements, dicts their
keys, strings their one-character substrings; the rest raise TypeError. -/
def pyIter (v : JVal) : Except Unit (List JVal) :=
  match v with
  | .jarr elems => .ok elems
  | .jobj fields => .ok (fields.map (fun p => .jstr p.1))
  | .jstr s => .ok (s.data.map (fun c => .jstr (String.singleton c)))
  | _ => .error ()

/-! ### rag_bridge.py : format_response -/

/-- One normalized citation record as built by format_response. Field
values are whatever JSON values the payload supplied, so that defaulting
and pass-through behaviour can be stated exactly. -/
structure CitationRec where
  title : JVal
  content : JVal
  url : JVal
  filepath : JVal

/-- The normalized answer plus citations shape returned to the bot. -/
structure FormattedResponse where
  answer : JVal
  citations : List CitationRec

/-- Mapping of one variant-A data point that is a dict: the citation dict
literal built inside the data_points loop of format_response. -/
def mapAObj (f : List (String × JVal)) : CitationRec :=
  { title := pyGet f "sourcefile" (pyGet f "title" (.jstr "Document"))
    content := pyGet f "content" (.jstr "")
    url := pyGet f "sourcepage" (.jstr "")
    filepath := pyGet f "sourcefile" (.jstr "") }

/-- The variant-A loop body: non-dict data points are skipped by the
isinstance guard, dict data points are mapped. -/
def mapDataPoint (v : JVal) : Option CitationRec :=
  match v with
  | .jobj f => some (mapAObj f)
  | _ => none

/-- Mapping of one variant-B citation that is a dict: the citation dict
literal built inside the citations loop of format_response. -/
def mapBObj (f : List (String × JVal)) : CitationRec :=
  { title := pyGet f "title" (.jstr "Document")
    content := pyGet f "content" (.jstr "")
    url := pyGet f "url" (.jstr "")
    filepath := pyGet f "filepath" (.jstr "") }

/-- The variant-B loop over the flat citations value: there is no
isinstance guard in this loop, so a non-dict element raises
AttributeError when .get is called on it. -/
def mapCitationsOld : List JVal → Except Unit (List CitationRec)
  | [] => .ok []
  | v :: rest =>
      match v with
      | .jobj f =>
          match mapCitationsOld rest with
          | .error e => .error e
          | .ok cs => .ok (mapBObj f :: cs)
      | _ => .error ()

/-- The elif answer / else branch of the answer extraction. -/
def answerFlat (fields : List (String × JVal)) : Except Unit JVal :=
  match jLookup fields "answer" with
  | some a => .ok a
  | none => .ok (.jstr "No answer found")

/-- Second half of the variant-A condition, entered when a message key is
present: content in rag_response[message] selects the nested content,
otherwise extraction falls through to the flat branch. -/
def answerFromMessage (fields : List (String × JVal)) (msg : JVal) : Except Unit JVal :=
  match pyIn "content" msg with
  | .error e => .error e
  | .ok true => pySubscript msg "content"
  | .ok false => answerFlat fields

/-- Answer extraction of format_response: message in rag_response and
content in rag_response[message] selects the nested content, else the
flat answer field, else the literal No answer found. -/
def answerOf (fields : List (String × JVal)) : Except Unit JVal :=
  match jLookup fields "message" with
  | some msg => answerFromMessage fields msg
  | none => answerFlat fields

/-- The loop over an already-fetched data_points value: iterate it and
map the dict elements, skipping non-dicts. -/
def iterDataPoints (dps : JVal) : Except Unit (List CitationRec) :=
  match pyIter dps with
  | .error e => .error e
  | .ok elems => .ok (elems.filterMap mapDataPoint)

/-- The body of the data_points branch: fetch context[data_points] and
run the loop over it. -/
def dataPointsCitations (ctx : JVal) : Except Unit (List CitationRec) :=
  match pySubscript ctx "data_points" with
  | .error e => .error e
  | .ok dps => iterDataPoints dps

/-- The context branch of citation extraction: when the data_points
membership test fails the citation list stays empty, and the flat
citations field is never consulted. -/
def citationsFromContext (ctx : JVal) : Except Unit (List CitationRec) :=
  match pyIn "data_points" ctx with
  | .error e => .error e
  | .ok true => dataPointsCitations ctx
  | .ok false => .ok []

/-- The loop over an already-fetched flat citations value. -/
def iterFlatCitations (cits : JVal) : Except Unit (List CitationRec) :=
  match pyIter cits with
  | .error e => .error e
  | .ok elems => mapCitationsOld elems

/-- The elif branch of citation extraction: the flat citations field,
used only when no context key exists. -/
def citationsFlat (fields : List (String × JVal)) : Except Unit (List CitationRec) :=
  match jLookup fields "citations" with
  | some cits => iterFlatCitations cits
  | none => .ok []

/-- Citation extraction of format_response: a context key (whatever its
value) routes to the data_points branch and suppresses the flat citations
branch; only when context is absent is the flat citations field used. -/
def citationsOf (fields : List (String × JVal)) : Except Unit (List CitationRec) :=
  match jLookup fields "context" with
  | some ctx => citationsFromContext ctx
  | none => citationsFlat fields

/-- RAGBridge.format_response: dict bodies get answer and citation
extraction (either of which may raise, propagating to the caller),
non-dict bodies get the fixed unexpected-format response. -/
def format_response (r : JVal) : Except Unit FormattedResponse :=
  match r with
  | .jobj fields =>
      match answerOf fields with
      | .error e => .error e
      | .ok ans =>
          match citationsOf fields with
          | .error e => .error e
          | .ok cits => .ok { answer := ans, citations := cits }
  | _ => .ok { answer := .jstr "Unexpected response format from search service", citations := [] }

/-! ### rag_bridge.py : process_query -/

/-- Canned response for HTTP 401. -/
def authErrorResponse : FormattedResponse :=
  { answer := .jstr "Authentication error with the search service. Please contact your administrator."
    citations := [] }

/-- Canned response for HTTP status at least 500. -/
def unavailableResponse : FormattedResponse :=
  { answer := .jstr "The search service is temporarily unavailable. Please try again in a few minutes."
    citations := [] }

/-- Canned response for any other non-200 status. -/
def genericErrorResponse : FormattedResponse :=
  { answer := .jstr "I couldn\x27t process your request right now. Please try again later."
    citations := [] }

/-- Canned response for asyncio.TimeoutError. -/
def slowResponse : FormattedResponse :=
  { answer := .jstr "The search is taking too long. Please try a simpler question or try again later."
    citations := [] }

/-- Canned response for any other exception caught in process_query. -/
def troubleConnectingResponse : FormattedResponse :=
  { answer := .jstr "I\x27m having trouble connecting to the search service. Please try again."
    citations := [] }

/-- Outcome of the single HTTP POST performed by process_query. A 200
response carries its parsed JSON body; ok200Unparseable is a 200 whose
body fails JSON parsing; non200Status carries a status code other than
200; the last two constructors are the timeout and every other transport
exception. -/
inductive HttpOutcome where
  | ok200 : JVal → HttpOutcome
  | ok200Unparseable : HttpOutcome
  | non200Status : Nat → HttpOutcome
  | timeout : HttpOutcome
  | transportError : HttpOutcome

/-- RAGBridge.process_query, as a function of the HTTP outcome: the
status ladder of the source, with every exception raised while parsing or
normalizing a 200 body caught by the final except clause. -/
def process_query (o : HttpOutcome) : FormattedResponse :=
  match o with
  | .ok200 body =>
      match format_response body with
      | .ok resp => resp
      | .error _ => troubleConnectingResponse
  | .ok200Unparseable => troubleConnectingResponse
  | .non200Status code =>
      if code = 401 then authErrorResponse
      else if 500 ≤ code then unavailableResponse
      else genericErrorResponse
  | .timeout => slowResponse
  | .transportError => troubleConnectingResponse

/-! ### conversation_storage.py : the two history backends -/

/-- One stored conversation turn as returned by get_conversation_history:
the role, content and ISO timestamp string of the message dict. -/
structure Turn where
  role : String
  content : String
  timestamp : String
deriving DecidableEq

/-- One row of the durable table partition of a conversation: the
timestamp-derived RowKey plus the Role, Content and Timestamp columns
written by add_message. -/
structure Row where
  rowKey : String
  role : String
  content : String
  timestamp : String
deriving DecidableEq

/-- Python tail slice l[-n:] on a list: the whole list when n is zero
(since -0 is 0), otherwise the last min(n, len) elements. -/
def tailSlice (l : List Turn) (n : Nat) : List Turn :=
  if n = 0 then l else l.drop (l.length - n)

/-- Python front slice l[:-k] on the sorted entity list: empty when k is
zero (since -0 is 0), otherwise everything but the last k elements. -/
def pyFrontSlice (l : List Row) (k : Nat) : List Row :=
  if k = 0 then [] else l.take (l.length - k)

/-- The in-memory backend state: the per-conversation message lists held
in the memory_storage dict, read with an empty-list default. -/
abbrev MemStore := String → List Turn

/-- The empty memory_storage dict. -/
def memEmpty : MemStore := fun _ => []

/-- The memory branch of add_message: append the new turn and keep only
the last 20 messages; always returns True. The timestamp produced by
datetime.utcnow inside the source is passed in as the ts argument. -/
def add_message_memory (m : MemStore) (c role content ts : String) : MemStore × Bool :=
  (fun c' =>
    if c' = c then
      let l := m c ++ [⟨role, content, ts⟩]
      if 20 < l.length then tailSlice l 20 else l
    else m c', true)

/-- The memory branch of clear_conversation: reset the conversation to
the empty list; always returns True. -/
def clear_conversation_memory (m : MemStore) (c : String) : MemStore × Bool :=
  (fun c' => if c' = c then [] else m c', true)

/-- The memory branch of get_conversation_history: a Python tail slice of
the stored list. -/
def get_conversation_history_memory (m : MemStore) (c : String) (maxMessages : Nat) : List Turn :=
  tailSlice (m c) maxMessages

/-- The message dict built from one queried entity inside the durable
branch of get_conversation_history. -/
def rowToTurn (r : Row) : Turn :=
  ⟨r.role, r.content, r.timestamp⟩

/-- Comparison of turns by their timestamp string, the sort key of the
durable read path. -/
def tsLe (a b : Turn) : Prop :=
  strLe a.timestamp b.timestamp = true

instance : DecidableRel tsLe :=
  fun a b => inferInstanceAs (Decidable (strLe a.timestamp b.timestamp = true))

/-- The durable branch of get_conversation_history on the queried rows of
the conversation partition (delivered by the table in arbitrary order):
build the message dicts, sort them by timestamp, and tail-slice. -/
def get_conversation_history_table (rows : List Row) (maxMessages : Nat) : List Turn :=
  tailSlice (List.insertionSort tsLe (rows.map rowToTurn)) maxMessages

/-- Comparison of rows by their RowKey string, the sort key of the
retention pass. -/
def rkLe (a b : Row) : Prop :=
  strLe a.rowKey b.rowKey = true

instance : DecidableRel rkLe :=
  fun a b => inferInstanceAs (Decidable (strLe a.rowKey b.rowKey = true))

/-- The entities selected for deletion by _cleanup_old_messages once the
partition holds more than keep_count rows: the sorted list minus its last
keep_count elements, via the Python slice entities[:-keep_count]. -/
def messages_to_delete (rows : List Row) (keepCount : Nat) : List Row :=
  pyFrontSlice (List.insertionSort rkLe rows) keepCount

/-- The content of the conversation partition after a successful
_cleanup_old_messages pass: when more than keep_count rows exist, every
row whose RowKey was selected for deletion is removed by delete_entity
(RowKeys are unique in a table partition); otherwise nothing changes. -/
def cleanup_old_messages (rows : List Row) (keepCount : Nat) : List Row :=
  if keepCount < rows.length then
    rows.filter (fun r => !((messages_to_delete rows keepCount).any (fun d => d.rowKey == r.rowKey)))
  else rows

/-- Control flow of the durable branch of add_message, as a function of
the outcome of the create_entity call and of the body of the retention
pass. The retention body runs inside the try/except of
_cleanup_old_messages, so its outcome is swallowed; a create_entity
failure is caught by the outer try/except and mapped to False. The
result is an Except so that never-raises is statable: the error case is
never produced. -/
def add_message_table (createRes : Except Unit Unit) (cleanupRes : Except Unit Unit) : Except Unit Bool :=
  match createRes with
  | .error _ => .ok false
  | .ok () =>
      match cleanupRes with
      | _ => .ok true

/-! ### teams_bot.py : command dispatch -/

/-- Observable actions of one inbound message turn, in order: the cards
and texts sent, the history reads and writes, and the bridge call. -/
inductive BotAction where
  | sendHelpCard : BotAction
  | clearHistory : BotAction
  | sendText : String → BotAction
  | readHistory : BotAction
  | bridgeQuery : String → BotAction
  | persistTurns : BotAction
  | sendResponseCard : BotAction
deriving DecidableEq

/-- TeamsRAGBot.handle_commands on the cleaned message text: lower-case,
then dispatch on the /help and /clear commands; some means the command
was handled (the source returns True) with the listed actions. -/
def handle_commands (cleaned : String) : Option (List BotAction) :=
  let message := pyToLower cleaned
  if pyStartsWith message "/help" || message == "help" then
    some [.sendHelpCard]
  else if pyStartsWith message "/clear" || message == "clear" then
    some [.clearHistory, .sendText "✅ Conversation history cleared!"]
  else none

/-- TeamsRAGBot.on_message_activity on the cleaned message text: commands
first, then the empty-query guard, then the history read, bridge call,
history update and card render. -/
def on_message_activity (cleaned : String) : List BotAction :=
  match handle_commands cleaned with
  | some acts => acts
  | none =>
      if cleaned == "" then
        [.sendText "Please ask me a question about your documents!"]
      else
        [.readHistory, .bridgeQuery cleaned, .persistTurns, .sendResponseCard]

/-! ### Concrete inputs used by witnesses and counterexamples -/

/-- Memory store holding one turn of one conversation, reached by a single
append to the empty store. -/
def exMemOne : MemStore :=
  (add_message_memory memEmpty "conv" "user" "hi" "2025-01-01T00:00:00").1

/-- Three durable rows of one conversation, queried back out of timestamp
order. -/
def exRows3 : List Row :=
  [⟨"20240101000000000003", "user", "q2", "2024-01-01T00:00:03"⟩,
   ⟨"20240101000000000001", "user", "q1", "2024-01-01T00:00:01"⟩,
   ⟨"20240101000000000002", "assistant", "a1", "2024-01-01T00:00:02"⟩]

/-- A variant-A-shaped backend body. -/
def variantABody : List (String × JVal) :=
  [("message", .jobj [("content", .jstr "ans")]),
   ("context", .jobj [("data_points",
      .jarr [.jobj [("sourcefile", .jstr "f.pdf"), ("content", .jstr "c"),
                    ("sourcepage", .jstr "p1")]])])]

/-- A body matching neither answer variant but carrying data points. -/
def neitherVariantBody : List (String × JVal) :=
  [("context", .jobj [("data_points", .jarr [.jobj [("content", .jstr "x")]])])]

/-- A variant-B body whose single citation entry is an empty dict. -/
def emptyCitationBody : List (String × JVal) :=
  [("answer", .jstr "a"), ("citations", .jarr [.jobj []])]

/-- The citation record produced from an empty citation entry. -/
def emptyCitationRec : CitationRec :=
  { title := .jstr "Document", content := .jstr "", url := .jstr "", filepath := .jstr "" }

/-- A body with a context key holding no data points next to a well-formed
flat citations array. -/
def flatCitationsWithContextBody : List (String × JVal) :=
  [("answer", .jstr "a"), ("context", .jobj []),
   ("citations", .jarr [.jobj [("title", .jstr "T"), ("content", .jstr "c"),
                               ("url", .jstr "u"), ("filepath", .jstr "p")]])]

/-! ### Helper lemmas -/

/-- Totality of the lexicographic comparison on character lists. -/
theorem charsLe_total : ∀ as bs : List Char, charsLe as bs = true ∨ charsLe bs as = true := by
  intro as
  induction as with
  | nil => intro bs; exact Or.inl rfl
  | cons a as ih =>
    intro bs
    cases bs with
    | nil => exact Or.inr rfl
    | cons b bs =>
      simp only [charsLe]
      by_cases hab : a = b
      · subst hab
        rw [if_pos rfl, if_pos rfl]
        exact ih bs
      · rw [if_neg hab, if_neg (Ne.symm hab)]
        rcases lt_or_gt_of_ne hab with h | h
        · exact Or.inl (decide_eq_true h)
        · exact Or.inr (decide_eq_true h)

/-- Transitivity of the lexicographic comparison on character lists. -/
theorem charsLe_trans : ∀ as bs cs : List Char,
    charsLe as bs = true → charsLe bs cs = true → charsLe as cs = true := by
  intro as
  induction as with
  | nil => intro bs cs _ _; rfl
  | cons a as ih =>
    intro bs cs h1 h2
    cases bs with
    | nil => exact absurd h1 (by simp [charsLe])
    | cons b bs =>
      cases cs with
      | nil => exact absurd h2 (by simp [charsLe])
      | cons c cs =>
        simp only [charsLe] at h1 h2 ⊢
        by_cases hab : a = b
        · subst hab
          rw [if_pos rfl] at h1
          by_cases hac : a = c
          · subst hac
            rw [if_pos rfl] at h2 ⊢
            exact ih bs cs h1 h2
          · rw [if_neg hac] at h2 ⊢
            exact h2
        · rw [if_neg hab] at h1
          have hab' : a < b := of_decide_eq_true h1
          by_cases hbc : b = c
          · subst hbc
            rw [if_neg hab]
            exact h1
          · rw [if_neg hbc] at h2
            have hbc' : b < c := of_decide_eq_true h2
            have hac' : a < c := lt_trans hab' hbc'
            rw [if_neg (ne_of_lt hac')]
            exact decide_eq_true hac'

/-- A Python tail slice with a positive bound returns at most that many
elements. -/
theorem tailSlice_length_le (l : List Turn) {n : Nat} (hn : n ≠ 0) :
    (tailSlice l n).length ≤ n := by
  simp only [tailSlice, if_neg hn, List.length_drop]
  omega

/-- A Python tail slice of a timestamp-sorted list is timestamp-sorted. -/
theorem tailSlice_sorted {l : List Turn} {n : Nat} (h : List.Sorted tsLe l) :
    List.Sorted tsLe (tailSlice l n) := by
  unfold tailSlice
  split
  · exact h
  · exact List.Pairwise.sublist (List.drop_sublist _ _) h

/-! ### Claim theorems -/

/-- Claim C1, counterexample. The claim asserts that read returns at most
n turns for every non-negative maxMessages n; at n equal to 0 the Python
slice l[-0:] is the whole list, so a store holding one turn returns one
turn, more than the requested zero. -/
theorem read_zero_window_counterexample :
    get_conversation_history_memory exMemOne "conv" 0 =
      [⟨"user", "hi", "2025-01-01T00:00:00"⟩] ∧
    0 < (get_conversation_history_memory exMemOne "conv" 0).length :=
  ⟨rfl, by decide⟩

/-- Claim C1, amended: for every conversation and every positive
maxMessages n, both backends return at most n turns in non-decreasing
timestamp order; the durable backend sorts on read, and the in-memory
backend preserves its stored order, so its window is sorted whenever the
stored turns are. -/
theorem read_window_bounded_and_sorted :
    ∀ (rows : List Row) (m : MemStore) (c : String) (n : Nat), 0 < n →
      (get_conversation_history_table rows n).length ≤ n ∧
      List.Sorted tsLe (get_conversation_history_table rows n) ∧
      (get_conversation_history_memory m c n).length ≤ n ∧
      (List.Sorted tsLe (m c) → List.Sorted tsLe (get_conversation_history_memory m c n)) := by
  intro rows m c n hn
  have hn' : n ≠ 0 := by omega
  haveI : IsTotal Turn tsLe := ⟨fun a b => charsLe_total _ _⟩
  haveI : IsTrans Turn tsLe := ⟨fun _ _ _ h1 h2 => charsLe_trans _ _ _ h1 h2⟩
  refine ⟨tailSlice_length_le _ hn', ?_, tailSlice_length_le _ hn', fun hm => tailSlice_sorted hm⟩
  exact tailSlice_sorted (List.sorted_insertionSort tsLe (rows.map rowToTurn))

/-- Claim C1, witness for the amended theorem at three queried rows, a
one-turn memory store and window size 2. -/
theorem read_window_bounded_and_sorted_witness :
    0 < 2 ∧
    ((get_conversation_history_table exRows3 2).length ≤ 2 ∧
     List.Sorted tsLe (get_conversation_history_table exRows3 2) ∧
     (get_conversation_history_memory exMemOne "conv" 2).length ≤ 2 ∧
     (List.Sorted tsLe (exMemOne "conv") →
       List.Sorted tsLe (get_conversation_history_memory exMemOne "conv" 2))) :=
  ⟨by decide, read_window_bounded_and_sorted exRows3 exMemOne "conv" 2 (by decide)⟩

/-- Claim C3: the status ladder of process_query maps 401 to the
authentication-error answer, any status of at least 500 to the
service-unavailable answer, every other non-200 status to the generic
answer, a timeout to the slow-search answer and every other transport or
parsing failure to the trouble-connecting answer, and all of these canned
responses carry empty citations. -/
theorem process_query_status_mapping :
    process_query (.non200Status 401) = authErrorResponse ∧
    (∀ code : Nat, 500 ≤ code → process_query (.non200Status code) = unavailableResponse) ∧
    (∀ code : Nat, code ≠ 401 → code < 500 →
      process_query (.non200Status code) = genericErrorResponse) ∧
    process_query .timeout = slowResponse ∧
    process_query .ok200Unparseable = troubleConnectingResponse ∧
    process_query .transportError = troubleConnectingResponse ∧
    authErrorResponse.citations = [] ∧
    unavailableResponse.citations = [] ∧
    genericErrorResponse.citations = [] ∧
    slowResponse.citations = [] ∧
    troubleConnectingResponse.citations = [] := by
  refine ⟨rfl, ?_, ?_, rfl, rfl, rfl, rfl, rfl, rfl, rfl, rfl⟩
  · intro code h
    simp only [process_query]
    rw [if_neg (by omega : ¬ code = 401), if_pos h]
  · intro code h1 h2
    simp only [process_query]
    rw [if_neg h1, if_neg (by omega : ¬ 500 ≤ code)]

/-- Claim C3, witness at the concrete statuses 503 and 404. -/
theorem process_query_status_mapping_witness :
    (500 ≤ 503 ∧ process_query (.non200Status 503) = unavailableResponse) ∧
    ((404 : Nat) ≠ 401 ∧ 404 < 500 ∧
      process_query (.non200Status 404) = genericErrorResponse) :=
  ⟨⟨by decide, process_query_status_mapping.2.1 503 (by decide)⟩,
   ⟨by decide, by decide, process_query_status_mapping.2.2.1 404 (by decide) (by decide)⟩⟩

/-- Claim C5: the command inputs help, /help and HELP all produce exactly
the help-card action, so neither the history read nor the bridge call
occurs; clear and /clear produce exactly one clear action followed by the
acknowledgment text, so the bridge is never invoked. -/
theorem command_dispatch_routes :
    on_message_activity "help" = [.sendHelpCard] ∧
    on_message_activity "/help" = [.sendHelpCard] ∧
    on_message_activity "HELP" = [.sendHelpCard] ∧
    on_message_activity "clear" =
      [.clearHistory, .sendText "✅ Conversation history cleared!"] ∧
    on_message_activity "/clear" =
      [.clearHistory, .sendText "✅ Conversation history cleared!"] ∧
    (on_message_activity "clear").count .clearHistory = 1 ∧
    (on_message_activity "/clear").count .clearHistory = 1 :=
  ⟨rfl, rfl, rfl, rfl, rfl, rfl, rfl⟩

/-- Claim C6: the durable append never raises (its result is always ok),
returns false exactly when the create call fails and true when it
succeeds regardless of the swallowed retention outcome, and the memory
append always returns true. -/
theorem add_message_swallows_failures :
    (∀ createRes cleanupRes : Except Unit Unit,
      (∃ b : Bool, add_message_table createRes cleanupRes = .ok b) ∧
      (createRes = .error () → add_message_table createRes cleanupRes = .ok false) ∧
      (createRes = .ok () → add_message_table createRes cleanupRes = .ok true)) ∧
    (∀ (m : MemStore) (c role content ts : String),
      (add_message_memory m c role content ts).2 = true) := by
  constructor
  · intro createRes cleanupRes
    refine ⟨?_, ?_, ?_⟩
    · cases createRes with
      | error e => exact ⟨false, rfl⟩
      | ok u => exact ⟨true, rfl⟩
    · intro h
      subst h
      rfl
    · intro h
      subst h
      rfl
  · intro m c role content ts
    rfl

/-- Claim C6, witness: a failed create yields ok false, a successful
create with a failing retention body yields ok true, and a memory append
returns true. -/
theorem add_message_swallows_failures_witness :
    add_message_table (.error ()) (.ok ()) = .ok false ∧
    add_message_table (.ok ()) (.error ()) = .ok true ∧
    (add_message_memory memEmpty "c" "user" "hi" "t").2 = true :=
  ⟨(add_message_swallows_failures.1 (.error ()) (.ok ())).2.1 rfl,
   (add_message_swallows_failures.1 (.ok ()) (.error ())).2.2 rfl,
   add_message_swallows_failures.2 memEmpty "c" "user" "hi" "t"⟩

/-- The variant-B citation loop maps a list of dict entries entrywise. -/
theorem mapCitationsOld_map_jobj :
    ∀ fs : List (List (String × JVal)),
      mapCitationsOld (fs.map JVal.jobj) = .ok (fs.map mapBObj)
  | [] => rfl
  | f :: fs => by
      simp only [List.map_cons, mapCitationsOld, mapCitationsOld_map_jobj fs]

/-- Every record produced by a successful variant-B citation loop is the
image of some dict entry under the variant-B field mapping. -/
theorem mapCitationsOld_mem :
    ∀ (l : List JVal) (cs : List CitationRec), mapCitationsOld l = .ok cs →
      ∀ c ∈ cs, ∃ f : List (String × JVal), c = mapBObj f := by
  intro l
  induction l with
  | nil =>
    intro cs h c hc
    cases h
    exact absurd hc (List.not_mem_nil c)
  | cons v rest ih =>
    intro cs h c hc
    cases v with
    | jobj f =>
      simp only [mapCitationsOld] at h
      cases hr : mapCitationsOld rest with
      | error e => rw [hr] at h; exact Except.noConfusion h
      | ok cs' =>
        rw [hr] at h
        have hcs : mapBObj f :: cs' = cs := Except.ok.inj h
        subst hcs
        rcases List.mem_cons.mp hc with hc1 | hc2
        · exact ⟨f, hc1⟩
        · exact ih cs' hr c hc2
    | jnull => exact Except.noConfusion h
    | jbool b => exact Except.noConfusion h
    | jnum n => exact Except.noConfusion h
    | jstr s => exact Except.noConfusion h
    | jarr a => exact Except.noConfusion h

/-- Every record produced by a successful citation extraction comes from
one of the two entry mappings. -/
theorem citationsOf_mem :
    ∀ (fields : List (String × JVal)) (cs : List CitationRec),
      citationsOf fields = .ok cs →
      ∀ c ∈ cs, ∃ f : List (String × JVal), c = mapAObj f ∨ c = mapBObj f := by
  intro fields cs h c hc
  unfold citationsOf at h
  cases hctx : jLookup fields "context" with
  | some ctx =>
    rw [hctx] at h
    have h1 : citationsFromContext ctx = .ok cs := h
    unfold citationsFromContext at h1
    cases hin : pyIn "data_points" ctx with
    | error e => rw [hin] at h1; exact Except.noConfusion h1
    | ok b =>
      rw [hin] at h1
      cases b with
      | true =>
        have h2 : dataPointsCitations ctx = .ok cs := h1
        unfold dataPointsCitations at h2
        cases hsub : pySubscript ctx "data_points" with
        | error e => rw [hsub] at h2; exact Except.noConfusion h2
        | ok dps =>
          rw [hsub] at h2
          have h3 : iterDataPoints dps = .ok cs := h2
          unfold iterDataPoints at h3
          cases hit : pyIter dps with
          | error e => rw [hit] at h3; exact Except.noConfusion h3
          | ok elems =>
            rw [hit] at h3
            have hcs : elems.filterMap mapDataPoint = cs := Except.ok.inj h3
            subst hcs
            rcases List.mem_filterMap.mp hc with ⟨v, _, hv⟩
            cases v with
            | jobj f => exact ⟨f, Or.inl (Option.some.inj hv).symm⟩
            | jnull => exact Option.noConfusion hv
            | jbool bb => exact Option.noConfusion hv
            | jnum nn => exact Option.noConfusion hv
            | jstr ss => exact Option.noConfusion hv
            | jarr aa => exact Option.noConfusion hv
      | false =>
        have hcs : ([] : List CitationRec) = cs := Except.ok.inj h1
        subst hcs
        exact absurd hc (List.not_mem_nil c)
  | none =>
    rw [hctx] at h
    have h1 : citationsFlat fields = .ok cs := h
    unfold citationsFlat at h1
    cases hck : jLookup fields "citations" with
    | some cits =>
      rw [hck] at h1
      have h2 : iterFlatCitations cits = .ok cs := h1
      unfold iterFlatCitations at h2
      cases hit : pyIter cits with
      | error e => rw [hit] at h2; exact Except.noConfusion h2
      | ok elems =>
        rw [hit] at h2
        rcases mapCitationsOld_mem elems cs h2 c hc with ⟨f, hf⟩
        exact ⟨f, Or.inr hf⟩
    | none =>
      rw [hck] at h1
      have hcs : ([] : List CitationRec) = cs := Except.ok.inj h1
      subst hcs
      exact absurd hc (List.not_mem_nil c)

/-- Claim C2, counterexample. The claim asserts that a body matching
neither variant normalizes to the No answer found answer with empty
citations; this body has neither a message nor an answer key, yet its
context.data_points still produce a non-empty citation list, because
answer detection and citation detection are independent. -/
theorem format_response_neither_variant_counterexample :
    jLookup neitherVariantBody "message" = none ∧
    jLookup neitherVariantBody "answer" = none ∧
    format_response (.jobj neitherVariantBody) =
      .ok { answer := .jstr "No answer found",
            citations := [{ title := .jstr "Document", content := .jstr "x",
                            url := .jstr "", filepath := .jstr "" }] } ∧
    (process_query (.ok200 (.jobj neitherVariantBody))).citations.length = 1 :=
  ⟨rfl, rfl, rfl, rfl⟩

/-- Claim C2, amended: a variant-A-shaped object body normalizes to the
nested message.content with the mapped data points; a variant-B-shaped
object body (flat answer and flat dict citations, with no message and no
context key) normalizes to the flat answer with the entrywise-mapped flat
citations; an object body with none of the four keys normalizes to the
literal No answer found with empty citations. Citation extraction is
independent of answer extraction, so a schema-less body may still carry
citations (see the counterexample). -/
theorem format_response_variant_normalization :
    (∀ (fields mf cf : List (String × JVal)) (ans : JVal) (dps : List JVal),
      jLookup fields "message" = some (.jobj mf) →
      jLookup mf "content" = some ans →
      jLookup fields "context" = some (.jobj cf) →
      jLookup cf "data_points" = some (.jarr dps) →
      format_response (.jobj fields) =
        .ok { answer := ans, citations := dps.filterMap mapDataPoint }) ∧
    (∀ (fields : List (String × JVal)) (ans : JVal)
        (cits : List (List (String × JVal))),
      jLookup fields "message" = none →
      jLookup fields "context" = none →
      jLookup fields "answer" = some ans →
      jLookup fields "citations" = some (.jarr (cits.map JVal.jobj)) →
      format_response (.jobj fields) =
        .ok { answer := ans, citations := cits.map mapBObj }) ∧
    (∀ fields : List (String × JVal),
      jLookup fields "message" = none →
      jLookup fields "answer" = none →
      jLookup fields "context" = none →
      jLookup fields "citations" = none →
      format_response (.jobj fields) =
        .ok { answer := .jstr "No answer found", citations := [] }) := by
  refine ⟨?_, ?_, ?_⟩
  · intro fields mf cf ans dps h1 h2 h3 h4
    simp only [format_response, answerOf, answerFromMessage, citationsOf,
      citationsFromContext, dataPointsCitations, iterDataPoints, pyIn, pySubscript,
      pyIter, h1, h2, h3, h4, Option.isSome_some]
  · intro fields ans cits h1 h2 h3 h4
    simp only [format_response, answerOf, answerFlat, citationsOf, citationsFlat,
      iterFlatCitations, pyIter, h1, h2, h3, h4, mapCitationsOld_map_jobj]
  · intro fields h1 h2 h3 h4
    simp only [format_response, answerOf, answerFlat, citationsOf, citationsFlat,
      h1, h2, h3, h4]

/-- Claim C2, witness for the variant-A leg at a concrete body. -/
theorem format_response_variant_normalization_witness :
    jLookup variantABody "message" = some (.jobj [("content", .jstr "ans")]) ∧
    format_response (.jobj variantABody) =
      .ok { answer := .jstr "ans",
            citations := [{ title := .jstr "f.pdf", content := .jstr "c",
                            url := .jstr "p1", filepath := .jstr "f.pdf" }] } :=
  ⟨rfl,
   format_response_variant_normalization.1 variantABody
     [("content", .jstr "ans")]
     [("data_points", .jarr [.jobj [("sourcefile", .jstr "f.pdf"),
        ("content", .jstr "c"), ("sourcepage", .jstr "p1")]])]
     (.jstr "ans")
     [.jobj [("sourcefile", .jstr "f.pdf"), ("content", .jstr "c"),
             ("sourcepage", .jstr "p1")]]
     rfl rfl rfl rfl⟩

/-- Claim C7, counterexample. The claim asserts every citation field is a
string defaulted to the empty string when absent; an absent title
defaults to the string Document, not the empty string, and a field that
is present with a JSON null is passed through as null. -/
theorem citation_default_counterexample :
    format_response (.jobj emptyCitationBody) =
      .ok { answer := .jstr "a", citations := [emptyCitationRec] } ∧
    emptyCitationRec.title = .jstr "Document" ∧
    ("Document" : String) ≠ "" ∧
    format_response (.jobj [("answer", .jstr "a"),
        ("citations", .jarr [.jobj [("title", JVal.jnull)]])]) =
      .ok { answer := .jstr "a",
            citations := [{ title := JVal.jnull, content := .jstr "",
                            url := .jstr "", filepath := .jstr "" }] } :=
  ⟨rfl, rfl, by decide, rfl⟩

/-- Claim C7, amended: every citation handed to the renderer has all four
fields present and is the image of some payload dict under one of the two
field mappings, whose get calls default content, url and filepath to the
empty string and title to the string Document when the key is absent, and
pass the payload value through unchanged (null included) when present. -/
theorem citations_are_mapped_records :
    ∀ (r : JVal) (resp : FormattedResponse), format_response r = .ok resp →
      ∀ c ∈ resp.citations, ∃ f : List (String × JVal), c = mapAObj f ∨ c = mapBObj f := by
  intro r resp hr c hc
  cases r with
  | jobj fields =>
    cases ha : answerOf fields with
    | error e =>
      rw [format_response, ha] at hr
      exact Except.noConfusion hr
    | ok ans =>
      cases hcit : citationsOf fields with
      | error e =>
        rw [format_response, ha, hcit] at hr
        exact Except.noConfusion hr
      | ok cs =>
        rw [format_response, ha, hcit] at hr
        have hresp : ({ answer := ans, citations := cs } : FormattedResponse) = resp :=
          Except.ok.inj hr
        subst hresp
        exact citationsOf_mem fields cs hcit c hc
  | jnull =>
    have hresp := Except.ok.inj hr
    subst hresp
    exact absurd hc (List.not_mem_nil c)
  | jbool b =>
    have hresp := Except.ok.inj hr
    subst hresp
    exact absurd hc (List.not_mem_nil c)
  | jnum n =>
    have hresp := Except.ok.inj hr
    subst hresp
    exact absurd hc (List.not_mem_nil c)
  | jstr s =>
    have hresp := Except.ok.inj hr
    subst hresp
    exact absurd hc (List.not_mem_nil c)
  | jarr a =>
    have hresp := Except.ok.inj hr
    subst hresp
    exact absurd hc (List.not_mem_nil c)

/-- Claim C7, witness at the empty-dict citation entry. -/
theorem citations_are_mapped_records_witness :
    format_response (.jobj emptyCitationBody) =
      .ok { answer := .jstr "a", citations := [emptyCitationRec] } ∧
    (∃ f : List (String × JVal),
      emptyCitationRec = mapAObj f ∨ emptyCitationRec = mapBObj f) :=
  ⟨rfl,
   citations_are_mapped_records (.jobj emptyCitationBody)
     { answer := .jstr "a", citations := [emptyCitationRec] } rfl
     emptyCitationRec (List.Mem.head _)⟩

/-- Claim C8, counterexample. The claim asserts every malformed body
yields the literal No answer found; a parsed body that is not a dict (an
empty JSON array here) instead yields the fixed unexpected-format answer,
and an unparseable body is caught by the generic except clause and yields
the trouble-connecting answer. -/
theorem malformed_body_counterexample :
    process_query (.ok200 (.jarr [])) =
      { answer := .jstr "Unexpected response format from search service",
        citations := [] } ∧
    ("Unexpected response format from search service" : String) ≠ "No answer found" ∧
    process_query .ok200Unparseable = troubleConnectingResponse ∧
    troubleConnectingResponse.answer = .jstr
      "I\x27m having trouble connecting to the search service. Please try again." :=
  ⟨rfl, by decide, rfl, rfl⟩

/-- Claim C8, amended: a 200 response whose parsed body is a JSON object
lacking both answer variants (no message key passing the content test and
no flat answer key) normalizes, whenever citation extraction itself
succeeds, to the literal No answer found; unparseable and non-dict bodies
yield other fixed fallback answers without failing the turn. -/
theorem no_answer_found_on_schema_less_object :
    ∀ (fields : List (String × JVal)) (cits : List CitationRec),
      (∀ msg, jLookup fields "message" = some msg → pyIn "content" msg = .ok false) →
      jLookup fields "answer" = none →
      citationsOf fields = .ok cits →
      process_query (.ok200 (.jobj fields)) =
        { answer := .jstr "No answer found", citations := cits } := by
  intro fields cits hmsg hans hcits
  have hansOf : answerOf fields = .ok (.jstr "No answer found") := by
    unfold answerOf
    cases hm : jLookup fields "message" with
    | none =>
      show answerFlat fields = _
      simp only [answerFlat, hans]
    | some msg =>
      show answerFromMessage fields msg = _
      unfold answerFromMessage
      rw [hmsg msg hm]
      show answerFlat fields = _
      simp only [answerFlat, hans]
  simp only [process_query, format_response, hansOf, hcits]

/-- Claim C8, witness at a body whose only key is a context without data
points. -/
theorem no_answer_found_on_schema_less_object_witness :
    jLookup [("context", JVal.jobj [])] "answer" = none ∧
    citationsOf [("context", JVal.jobj [])] = .ok [] ∧
    process_query (.ok200 (.jobj [("context", JVal.jobj [])])) =
      { answer := .jstr "No answer found", citations := [] } :=
  ⟨rfl, rfl,
   no_answer_found_on_schema_less_object [("context", JVal.jobj [])] []
     (fun _ h => Option.noConfusion h) rfl rfl⟩

/-- Claim C9: whenever the body contains a context key whose value does
not pass the data_points membership test, the citations returned by the
bridge are empty, even when a well-formed flat citations array is present
in the same body, because the flat branch is an elif on the context
check. -/
theorem context_suppresses_flat_citations :
    ∀ (fields : List (String × JVal)) (ctx : JVal),
      jLookup fields "context" = some ctx →
      pyIn "data_points" ctx ≠ .ok true →
      (process_query (.ok200 (.jobj fields))).citations = [] := by
  intro fields ctx hctx hdp
  have hcit : citationsOf fields = .ok [] ∨ citationsOf fields = .error () := by
    unfold citationsOf
    rw [hctx]
    show citationsFromContext ctx = .ok [] ∨ citationsFromContext ctx = .error ()
    unfold citationsFromContext
    cases hin : pyIn "data_points" ctx with
    | error e =>
      cases e
      exact Or.inr rfl
    | ok b =>
      cases b with
      | true => exact absurd hin hdp
      | false => exact Or.inl rfl
  cases ha : answerOf fields with
  | error e =>
    simp only [process_query, format_response, ha]
    rfl
  | ok ans =>
    rcases hcit with h | h
    · simp only [process_query, format_response, ha, h]
    · simp only [process_query, format_response, ha, h]
      rfl

/-- Claim C9, witness: a body with an empty context dict and a
well-formed flat citations array still yields empty citations. -/
theorem context_suppresses_flat_citations_witness :
    jLookup flatCitationsWithContextBody "context" = some (.jobj []) ∧
    (process_query (.ok200 (.jobj flatCitationsWithContextBody))).citations = [] :=
  ⟨rfl,
   context_suppresses_flat_citations flatCitationsWithContextBody (.jobj []) rfl
     (fun h => Bool.noConfusion (Except.ok.inj h))⟩

/-- Claim C4: once a conversation holds more than keepCount rows (for any
positive keepCount; the only call site uses the default 50), the
append-triggered retention pass leaves exactly keepCount rows, namely the
greatest keepCount in RowKey sort order, so every kept row is at least as
recent as every deleted row; on the in-memory backend the bound of 20 is
enforced directly at append time. -/
theorem retention_keeps_most_recent :
    (∀ (rows : List Row) (keepCount : Nat), 0 < keepCount → keepCount < rows.length →
      (rows.map Row.rowKey).Nodup →
      List.Perm (cleanup_old_messages rows keepCount)
        ((List.insertionSort rkLe rows).drop (rows.length - keepCount)) ∧
      (cleanup_old_messages rows keepCount).length = keepCount ∧
      ∀ r ∈ cleanup_old_messages rows keepCount,
        ∀ d ∈ messages_to_delete rows keepCount, rkLe d r) ∧
    (∀ (m : MemStore) (c role content ts : String),
      ((add_message_memory m c role content ts).1 c).length ≤ 20) := by
  constructor
  · intro rows keep hk hlen hnd
    haveI : IsTotal Row rkLe := ⟨fun a b => charsLe_total _ _⟩
    haveI : IsTrans Row rkLe := ⟨fun _ _ _ h1 h2 => charsLe_trans _ _ _ h1 h2⟩
    have hk' : keep ≠ 0 := by omega
    set sorted := List.insertionSort rkLe rows with hsorted_def
    have hperm : List.Perm sorted rows := List.perm_insertionSort rkLe rows
    have hslen : sorted.length = rows.length := hperm.length_eq
    have hdel : messages_to_delete rows keep = sorted.take (sorted.length - keep) := by
      simp only [messages_to_delete, pyFrontSlice, if_neg hk', hsorted_def]
    set toDel := sorted.take (sorted.length - keep) with htd
    set kept := sorted.drop (sorted.length - keep) with hkt
    have hsplit : toDel ++ kept = sorted := List.take_append_drop _ _
    set p : Row → Bool := fun r => !(toDel.any (fun d => d.rowKey == r.rowKey)) with hp
    have hclean : cleanup_old_messages rows keep = rows.filter p := by
      simp only [cleanup_old_messages, if_pos hlen, hdel, hp]
    have hpermfilter : List.Perm (rows.filter p) (sorted.filter p) := hperm.symm.filter p
    have hfilter_split : sorted.filter p = toDel.filter p ++ kept.filter p := by
      rw [← hsplit, List.filter_append]
    have hdelnil : toDel.filter p = [] := by
      refine List.filter_eq_nil_iff.mpr ?_
      intro d hd
      have hany : toDel.any (fun x => x.rowKey == d.rowKey) = true :=
        List.any_eq_true.mpr ⟨d, hd, by simp⟩
      simp [hp, hany]
    have hnodups : (sorted.map Row.rowKey).Nodup := (hperm.map Row.rowKey).nodup_iff.mpr hnd
    have hkeysplit : (toDel.map Row.rowKey ++ kept.map Row.rowKey).Nodup := by
      rw [← List.map_append, hsplit]
      exact hnodups
    have hdisj := (List.nodup_append.mp hkeysplit).2.2
    have hkeptself : kept.filter p = kept := by
      refine List.filter_eq_self.mpr ?_
      intro r hr
      simp only [hp, Bool.not_eq_true', List.any_eq_false]
      intro d hd
      intro heq
      have heq' : d.rowKey = r.rowKey := by simpa using heq
      exact hdisj (heq' ▸ List.mem_map_of_mem Row.rowKey hd)
        (List.mem_map_of_mem Row.rowKey hr)
    have hfinal : List.Perm (cleanup_old_messages rows keep) kept := by
      rw [hclean]
      have : sorted.filter p = kept := by
        rw [hfilter_split, hdelnil, hkeptself, List.nil_append]
      exact this ▸ hpermfilter
    have hkeptlen : kept.length = keep := by
      rw [hkt, List.length_drop]
      omega
    refine ⟨?_, ?_, ?_⟩
    · rw [← hslen]
      exact hfinal
    · rw [hfinal.length_eq]
      exact hkeptlen
    · intro r hr d hd
      have hrk : r ∈ kept := hfinal.mem_iff.mp hr
      rw [hdel] at hd
      have hsorted : List.Sorted rkLe sorted := List.sorted_insertionSort rkLe rows
      rw [← hsplit] at hsorted
      exact (List.pairwise_append.mp hsorted).2.2 d hd r hrk
  · intro m c role content ts
    simp only [add_message_memory, if_true]
    split
    · exact tailSlice_length_le _ (by omega)
    · omega

/-- Claim C4, witness at three rows with retention ceiling 2. -/
theorem retention_keeps_most_recent_witness :
    (0 < 2 ∧ 2 < exRows3.length ∧ (exRows3.map Row.rowKey).Nodup) ∧
    (List.Perm (cleanup_old_messages exRows3 2)
       ((List.insertionSort rkLe exRows3).drop (exRows3.length - 2)) ∧
     (cleanup_old_messages exRows3 2).length = 2 ∧
     ∀ r ∈ cleanup_old_messages exRows3 2,
       ∀ d ∈ messages_to_delete exRows3 2, rkLe d r) :=
  ⟨⟨by decide, by decide, by decide⟩,
   retention_keeps_most_recent.1 exRows3 2 (by decide) (by decide) (by decide)⟩

/-- Claim C10: on the in-memory backend, appending to or clearing one
conversation leaves the stored history of every other conversation
unchanged. -/
theorem memory_backend_frame :
    ∀ (m : MemStore) (c c' role content ts : String), c' ≠ c →
      (add_message_memory m c role content ts).1 c' = m c' ∧
      (clear_conversation_memory m c).1 c' = m c' := by
  intro m c c' role content ts h
  constructor
  · simp only [add_message_memory, if_neg h]
  · simp only [clear_conversation_memory, if_neg h]

/-- Claim C10, witness at two concrete distinct conversation ids. -/
theorem memory_backend_frame_witness :
    ("other" : String) ≠ "conv" ∧
    ((add_message_memory exMemOne "conv" "user" "x" "t").1 "other" = exMemOne "other" ∧
     (clear_conversation_memory exMemOne "conv").1 "other" = exMemOne "other") :=
  ⟨by decide, memory_backend_frame exMemOne "conv" "other" "user" "x" "t" (by decide)⟩

end TeamsBotModel
